import Mathlib

/- A shallow embedding of the request orchestration pipeline in
   soci-index-generator-standalone/handler.go.

   Go strings are modelled as lists of characters.  The Go standard
   library helpers used by the handler (strings.Split with a one
   character separator, strings.TrimPrefix, strings.TrimSuffix) are
   modelled character by character below.  External collaborators
   (registry, stores, index build library) are modelled by an oracle
   record supplying the outcome of each collaborator call; errors are
   modelled by their message strings, matching the string comparison
   the handler performs on the empty-index error. -/

/-- Models strings.Split with a one character separator: the list is cut
at every occurrence of the separator.  The result is never empty. -/
def splitOnChar (c : Char) : List Char → List (List Char)
  | [] => [[]]
  | x :: xs =>
    match splitOnChar c xs with
    | [] => [[]]
    | h :: t => if x = c then [] :: h :: t else (x :: h) :: t

theorem splitOnChar_ne_nil (c : Char) (l : List Char) : splitOnChar c l ≠ [] := by
  cases l with
  | nil => simp [splitOnChar]
  | cons x xs =>
    simp only [splitOnChar]
    cases hs : splitOnChar c xs with
    | nil => simp
    | cons h t => by_cases hx : x = c <;> simp [hx]

theorem splitOnChar_of_not_mem (c : Char) (l : List Char) (h : c ∉ l) :
    splitOnChar c l = [l] := by
  induction l with
  | nil => rfl
  | cons x xs ih =>
    simp only [List.mem_cons, not_or] at h
    have hx : ¬ x = c := fun hxc => h.1 hxc.symm
    simp only [splitOnChar, ih h.2]
    simp [hx]

theorem splitOnChar_append (c : Char) (a b : List Char) (h : c ∉ a) :
    splitOnChar c (a ++ c :: b) = a :: splitOnChar c b := by
  induction a with
  | nil =>
    simp only [List.nil_append, splitOnChar]
    cases hb : splitOnChar c b with
    | nil => exact absurd hb (splitOnChar_ne_nil c b)
    | cons hh tt => simp
  | cons x xs ih =>
    simp only [List.mem_cons, not_or] at h
    have hx : ¬ x = c := fun hxc => h.1 hxc.symm
    simp only [List.cons_append, splitOnChar, List.append_eq]
    rw [ih h.2]
    simp [hx]

theorem two_le_splitOnChar_length (c : Char) (l : List Char) (h : c ∈ l) :
    2 ≤ (splitOnChar c l).length := by
  induction l with
  | nil => cases h
  | cons x xs ih =>
    simp only [splitOnChar]
    cases hs : splitOnChar c xs with
    | nil => exact absurd hs (splitOnChar_ne_nil c xs)
    | cons hh tt =>
      by_cases hx : x = c
      · simp [hx]
      · have hmem : c ∈ xs := by
          rcases List.mem_cons.mp h with h1 | h2
          · exact absurd h1.symm hx
          · exact h2
        have h2 := ih hmem
        rw [hs] at h2
        simp only [List.length_cons] at h2
        simp [hx, List.length_cons]
        omega

/-- Models strings.TrimPrefix: removes the leading occurrence of the
second argument when present, otherwise returns the string unchanged. -/
def trimPre (s pre : List Char) : List Char :=
  if s.take pre.length = pre then s.drop pre.length else s

/-- Models strings.TrimSuffix, implemented through list reversal. -/
def trimSuf (s suf : List Char) : List Char :=
  (trimPre s.reverse suf.reverse).reverse

theorem trimPre_append (pre rest : List Char) : trimPre (pre ++ rest) pre = rest := by
  simp [trimPre, List.take_left, List.drop_left]

theorem trimPre_of_take_ne (s pre : List Char) (h : s.take pre.length ≠ pre) :
    trimPre s pre = s := by
  simp [trimPre, h]

theorem trimSuf_append (rest suf : List Char) : trimSuf (rest ++ suf) suf = rest := by
  simp only [trimSuf, List.reverse_append]
  rw [trimPre_append]
  exact List.reverse_reverse rest

/-- The parsed image reference of the handler: registry host, repository
path and digest, as produced by lines 48 to 51 of handler.go. -/
structure ImageReference where
  registryHost : List Char
  repository : List Char
  digest : List Char
  deriving DecidableEq

/-- Models lines 48 to 51 of handler.go.  The digest is element 1 of the
colon split, the registry host is element 0 of the slash split, and the
repository is the input with the host prefix and the colon-digest suffix
trimmed.  The none result models the index-out-of-range runtime fault
raised by the Go code when the input holds no colon at all. -/
def parseRef (url : List Char) : Option ImageReference :=
  match (splitOnChar ':' url).drop 1 with
  | [] => none
  | d :: _ =>
    let host := (splitOnChar '/' url).headD []
    let repo0 := trimPre url (host ++ [ '/' ])
    some { registryHost := host, repository := trimSuf repo0 ( ':' :: d), digest := d }

/-- A descriptor together with its creation timestamp, as returned by
the index descriptor collection lookup in buildIndex (handler.go lines
221 to 234). -/
structure DescInfo where
  digest : String
  createdAt : Nat
  deriving DecidableEq

/-- One insertion step of the ascending sort on creation timestamps. -/
def insertByCreated (d : DescInfo) : List DescInfo → List DescInfo
  | [] => [d]
  | x :: xs =>
    if d.createdAt < x.createdAt then d :: x :: xs else x :: insertByCreated d xs

/-- Models the sort.Slice call in buildIndex: the descriptor list is
reordered into ascending creation-time order, using the same comparator
(CreatedAt.Before) as the Go code. -/
def sortByCreated : List DescInfo → List DescInfo
  | [] => []
  | x :: xs => insertByCreated x (sortByCreated xs)

theorem insertByCreated_ne_nil (d : DescInfo) (l : List DescInfo) :
    insertByCreated d l ≠ [] := by
  cases l with
  | nil => simp [insertByCreated]
  | cons x xs => simp only [insertByCreated]; split <;> simp

theorem mem_insertByCreated (y d : DescInfo) (l : List DescInfo) :
    y ∈ insertByCreated d l ↔ y = d ∨ y ∈ l := by
  induction l with
  | nil => simp [insertByCreated]
  | cons x xs ih =>
    simp only [insertByCreated]
    split
    · simp only [List.mem_cons]
    · simp only [List.mem_cons, ih]
      tauto

theorem mem_sortByCreated (y : DescInfo) (l : List DescInfo) :
    y ∈ sortByCreated l ↔ y ∈ l := by
  induction l with
  | nil => simp [sortByCreated]
  | cons x xs ih => simp [sortByCreated, mem_insertByCreated, ih]

theorem sortByCreated_eq_nil_iff (l : List DescInfo) :
    sortByCreated l = [] ↔ l = [] := by
  cases l with
  | nil => simp [sortByCreated]
  | cons x xs => simp [sortByCreated, insertByCreated_ne_nil]

theorem getLast_insertByCreated_high (d : DescInfo) (l : List DescInfo)
    (h : ∀ y ∈ l, ¬ d.createdAt < y.createdAt) :
    (insertByCreated d l).getLast? = some d := by
  induction l with
  | nil => rfl
  | cons x xs ih =>
    have hx : ¬ d.createdAt < x.createdAt := h x (List.mem_cons_self x xs)
    simp only [insertByCreated, if_neg hx]
    cases hi : insertByCreated d xs with
    | nil => exact absurd hi (insertByCreated_ne_nil d xs)
    | cons z zs =>
      rw [List.getLast?_cons_cons, ← hi]
      exact ih (fun y hy => h y (List.mem_cons_of_mem x hy))

theorem getLast_insertByCreated_low (d : DescInfo) (l : List DescInfo)
    (h : ∃ y ∈ l, d.createdAt < y.createdAt) :
    (insertByCreated d l).getLast? = l.getLast? := by
  induction l with
  | nil =>
    rcases h with ⟨y, hy, _⟩
    cases hy
  | cons x xs ih =>
    by_cases hx : d.createdAt < x.createdAt
    · simp only [insertByCreated, if_pos hx]
      exact List.getLast?_cons_cons
    · simp only [insertByCreated, if_neg hx]
      have hxs : ∃ y ∈ xs, d.createdAt < y.createdAt := by
        rcases h with ⟨y, hy, hlt⟩
        rcases List.mem_cons.mp hy with h1 | h2
        · subst h1; exact absurd hlt hx
        · exact ⟨y, h2, hlt⟩
      rcases hxs with ⟨y, hy, hlt⟩
      cases xs with
      | nil => cases hy
      | cons x1 xs1 =>
        cases hi : insertByCreated d (x1 :: xs1) with
        | nil => exact absurd hi (insertByCreated_ne_nil d (x1 :: xs1))
        | cons z zs =>
          rw [List.getLast?_cons_cons, ← hi, ih ⟨y, hy, hlt⟩,
            List.getLast?_cons_cons]

theorem sortByCreated_getLast_max (l : List DescInfo) (hne : l ≠ []) :
    ∃ d, (sortByCreated l).getLast? = some d ∧ d ∈ l ∧
      ∀ y ∈ l, y.createdAt ≤ d.createdAt := by
  induction l with
  | nil => exact absurd rfl hne
  | cons x xs ih =>
    cases xs with
    | nil =>
      refine ⟨x, rfl, List.mem_cons_self x [], fun y hy => ?_⟩
      rcases List.mem_cons.mp hy with h1 | h2
      · subst h1; exact Nat.le_refl _
      · cases h2
    | cons x1 xs1 =>
      rcases ih (by simp) with ⟨d, hd, hdmem, hdmax⟩
      by_cases hlt : ∃ y ∈ sortByCreated (x1 :: xs1), x.createdAt < y.createdAt
      · refine ⟨d, ?_, List.mem_cons_of_mem x hdmem, fun y hy => ?_⟩
        · have hstep : sortByCreated (x :: x1 :: xs1)
              = insertByCreated x (sortByCreated (x1 :: xs1)) := rfl
          rw [hstep, getLast_insertByCreated_low x _ hlt]
          exact hd
        · rcases List.mem_cons.mp hy with h1 | h2
          · subst h1
            rcases hlt with ⟨y0, hy0, hlt0⟩
            have hy0m : y0 ∈ x1 :: xs1 := (mem_sortByCreated y0 _).mp hy0
            exact Nat.le_trans (Nat.le_of_lt hlt0) (hdmax y0 hy0m)
          · exact hdmax y h2
      · push_neg at hlt
        refine ⟨x, ?_, List.mem_cons_self x _, fun y hy => ?_⟩
        · have hstep : sortByCreated (x :: x1 :: xs1)
              = insertByCreated x (sortByCreated (x1 :: xs1)) := rfl
          rw [hstep]
          exact getLast_insertByCreated_high x _ (fun y hy => Nat.not_lt.mpr (hlt y hy))
        · rcases List.mem_cons.mp hy with h1 | h2
          · subst h1; exact Nat.le_refl _
          · have hyS : y ∈ sortByCreated (x1 :: xs1) := (mem_sortByCreated y _).mpr h2
            exact hlt y hyS

/- Constants of handler.go lines 32 to 45, plus the literal outcome
   strings used inline in handleRequest. -/

def ErrEmptyIndexMessage : String :=
  "no ztocs created, all layers either skipped or produced errors"

def BuildFailedMessage : String := "SOCI index build error"

def PushFailedMessage : String := "SOCI index push error"

def SkipPushOnEmptyIndexMessage : String :=
  "Skipping pushing SOCI index as it does not contain any zTOCs"

def BuildAndPushSuccessMessage : String := "Successfully built and pushed SOCI index"

def ValidationSkipMessage : String := "Exited early due to manifest validation error"

def DirectoryCreateErrorMessage : String := "Directory create error"

def StoreInitErrorMessage : String := "OCI storage initialization error"

def PullErrorMessage : String := "Image pull error"

def NoIndicesFoundMessage : String := "No SOCI indices found in OCI store"

/-- Outcomes of the external collaborator calls made during one
invocation of handleRequest.  Each field gives the result the
collaborator would return if the handler reached that call; errors are
carried as their message strings, matching the string comparison the
handler performs on the distinguished empty-index error. -/
structure Oracle where
  freeSpace : Nat
  registryInit : Except String Unit
  validate : Except String Unit
  tempDir : Except String String
  sociStoreInit : Except String Unit
  pull : Except String String
  artifactsDbInit : Except String Unit
  containerdStoreInit : Except String Unit
  builderInit : Except String Unit
  build : Except String Unit
  writeIndex : Except String Unit
  indexDescriptors : Except String (List DescInfo)
  push : Except String Unit

/-- Models buildIndex (handler.go lines 190 to 235): artifacts db init,
containerd store init, builder construction, Build, WriteSociIndex, then
the descriptor collection lookup; an empty collection is an error, and
otherwise the list is sorted in ascending creation-time order and the
last element is returned. -/
def buildIndex (o : Oracle) : Except String DescInfo :=
  match o.artifactsDbInit with
  | .error e => .error e
  | .ok _ =>
  match o.containerdStoreInit with
  | .error e => .error e
  | .ok _ =>
  match o.builderInit with
  | .error e => .error e
  | .ok _ =>
  match o.build with
  | .error e => .error e
  | .ok _ =>
  match o.writeIndex with
  | .error e => .error e
  | .ok _ =>
  match o.indexDescriptors with
  | .error e => .error e
  | .ok infos =>
    if infos.length = 0 then .error NoIndicesFoundMessage
    else
      match (sortByCreated infos).getLast? with
      | none => .error NoIndicesFoundMessage
      | some d => .ok d

/-- The threshold of the free space warning in createTempDir
(handler.go line 122). -/
def minFreeSpaceBytes : Nat := 6000000000

/-- The outcome of createTempDir: whether the low free space warning was
logged, and the result of the directory allocation. -/
structure TempDirOutcome where
  lowSpaceWarned : Bool
  result : Except String String

/-- Models createTempDir (handler.go lines 118 to 130): the free space
measurement only decides whether a warning is logged; the allocation
outcome is returned unchanged, whatever the measured capacity. -/
def createTempDir (freeSpace : Nat) (alloc : Except String String) : TempDirOutcome :=
  { lowSpaceWarned := decide (freeSpace < minFreeSpaceBytes), result := alloc }

/-- Models cleanUp (handler.go lines 133 to 138): os.RemoveAll removes
every entry of the flat path list equal to the data directory; removing
a directory that is no longer present is a no-op. -/
def cleanUpFs (fs : List String) (dataDir : String) : List String :=
  fs.filter (fun p => p != dataDir)

/-- The collaborator calls the handler can attempt, in pipeline order.
The calls inside buildIndex are folded into the single buildIdx step. -/
inductive Step
  | registryInit
  | validateManifest
  | createDir
  | storeInit
  | pullImage
  | buildIdx
  | pushIndex
  deriving DecidableEq

/-- The observable outcome of one handleRequest invocation: the returned
message and error, the collaborator calls attempted, whether the low
space warning was logged, and the workspace directory if one was
allocated. -/
structure HandleResult where
  msg : String
  err : Option String
  calls : List Step
  lowSpaceWarned : Bool
  wsDir : Option String
  deriving DecidableEq

/-- The tail of handleRequest, run once the workspace directory exists
(handler.go lines 82 to 113): SOCI store init, pull, buildIndex, push.
A build error whose message equals the empty-index message is mapped to
the empty-index skip outcome with a nil error; every other error is
returned with its category message. -/
def handleRequestCore (o : Oracle) : String × Option String × List Step :=
  match o.sociStoreInit with
  | .error e => (StoreInitErrorMessage, some e, [Step.storeInit])
  | .ok _ =>
  match o.pull with
  | .error e => (PullErrorMessage, some e, [Step.storeInit, Step.pullImage])
  | .ok _ =>
  match buildIndex o with
  | .error e =>
    if e = ErrEmptyIndexMessage then
      (SkipPushOnEmptyIndexMessage, none,
        [Step.storeInit, Step.pullImage, Step.buildIdx])
    else
      (BuildFailedMessage, some e,
        [Step.storeInit, Step.pullImage, Step.buildIdx])
  | .ok _ =>
  match o.push with
  | .error e =>
    (PushFailedMessage, some e,
      [Step.storeInit, Step.pullImage, Step.buildIdx, Step.pushIndex])
  | .ok _ =>
    (BuildAndPushSuccessMessage, none,
      [Step.storeInit, Step.pullImage, Step.buildIdx, Step.pushIndex])

/-- Models handleRequest (handler.go lines 47 to 114) as a sequential
function of the collaborator oracle.  The none result models the
runtime fault of the digest split when the URL holds no colon.  A
registry initialization error is only printed (line 57) and execution
continues, exactly as in the source.  The list of paths models the /tmp
contents: the workspace directory is added on allocation and removed by
the deferred cleanUp on every exit path that allocated it.  The
concurrent deadline watcher is modelled separately by watcherLoop. -/
def handleRequest (o : Oracle) (url : List Char) (fs : List String) :
    Option (HandleResult × List String) :=
  match parseRef url with
  | none => none
  | some _ref =>
    match o.validate with
    | .error _ =>
      some ({ msg := ValidationSkipMessage, err := none,
              calls := [Step.registryInit, Step.validateManifest],
              lowSpaceWarned := false, wsDir := none }, fs)
    | .ok _ =>
      match (createTempDir o.freeSpace o.tempDir).result with
      | .error e =>
        some ({ msg := DirectoryCreateErrorMessage, err := some e,
                calls := [Step.registryInit, Step.validateManifest, Step.createDir],
                lowSpaceWarned := (createTempDir o.freeSpace o.tempDir).lowSpaceWarned,
                wsDir := none }, fs)
      | .ok dir =>
        some ({ msg := (handleRequestCore o).1, err := (handleRequestCore o).2.1,
                calls := [Step.registryInit, Step.validateManifest, Step.createDir]
                  ++ (handleRequestCore o).2.2,
                lowSpaceWarned := (createTempDir o.freeSpace o.tempDir).lowSpaceWarned,
                wsDir := some dir },
              cleanUpFs (dir :: fs) dir)

/-- The two terminal states of the deadline watcher goroutine, plus the
armed state it occupies while neither channel has been consumed. -/
inductive WatcherState
  | armed
  | fired
  | cancelled
  deriving DecidableEq

/-- The terminal observation of one watcher run: the state it stopped in
and whether it invoked the workspace cleanup. -/
structure WatcherResult where
  state : WatcherState
  cleanupRan : Bool
  deriving DecidableEq

/-- The safety margin subtracted from the deadline in setDeadline
(handler.go line 148), in seconds. -/
def deadlineSafetyMarginSeconds : Nat := 10

/-- One run of the goroutine built by setDeadline (handler.go lines 150
to 161), over discrete time in seconds.  The timeout channel is ready
from the trigger time on; the quit channel is ready from the signal
time on; at every instant the select consumes a ready channel, the
timeout checked first.  Firing performs the cleanup and terminates;
a quit signal terminates without cleanup.  The fuel bounds how many
instants are observed. -/
def watcherLoop (trigger signal : Nat) : Nat → Nat → WatcherResult
  | _, 0 => { state := WatcherState.armed, cleanupRan := false }
  | t, fuel + 1 =>
    if trigger ≤ t then { state := WatcherState.fired, cleanupRan := true }
    else if signal ≤ t then { state := WatcherState.cancelled, cleanupRan := false }
    else watcherLoop trigger signal (t + 1) fuel

/-- Models setDeadline (handler.go lines 144 to 162): the trigger time
is the absolute deadline minus the safety margin, and the watcher starts
observing at instant zero. -/
def runWatcher (deadline signal fuel : Nat) : WatcherResult :=
  watcherLoop (deadline - deadlineSafetyMarginSeconds) signal 0 fuel

/-- Bool-valued success test on collaborator outcomes. -/
def isOkE {α : Type} : Except String α → Bool
  | .ok _ => true
  | .error _ => false

/-- A collaborator behavior in which every call succeeds. -/
def okOracle : Oracle :=
  { freeSpace := 7000000000
  , registryInit := .ok ()
  , validate := .ok ()
  , tempDir := .ok ("/tmp/soci-lambda1")
  , sociStoreInit := .ok ()
  , pull := .ok ("sha256:imagedigest")
  , artifactsDbInit := .ok ()
  , containerdStoreInit := .ok ()
  , builderInit := .ok ()
  , build := .ok ()
  , writeIndex := .ok ()
  , indexDescriptors := .ok [{ digest := "sha256:indexdigest", createdAt := 5 }]
  , push := .ok () }

theorem not_mem_cleanUpFs (fs : List String) (d : String) : d ∉ cleanUpFs fs d := by
  simp [cleanUpFs, List.mem_filter]

/-- Claim C2: when manifest validation of the parsed reference fails,
handleRequest returns the fixed validation skip message together with a
nil error, and no later pipeline step (workspace creation, store init,
pull, build, push) is attempted: the calls stop at the validation step
and the /tmp contents are untouched. -/
theorem validation_failure_skips_with_nil_error
    (o : Oracle) (url : List Char) (fs : List String) (ref : ImageReference)
    (e : String) (hp : parseRef url = some ref) (hv : o.validate = Except.error e) :
    handleRequest o url fs =
      some ({ msg := ValidationSkipMessage, err := none,
              calls := [Step.registryInit, Step.validateManifest],
              lowSpaceWarned := false, wsDir := none }, fs) := by
  simp [handleRequest, hp, hv]

/-- A collaborator behavior in which only manifest validation fails. -/
def validationFailOracle : Oracle :=
  { okOracle with validate := .error ("unsupported manifest media type") }

/-- Witness for C2 at a concrete oracle and reference. -/
theorem validation_failure_skips_with_nil_error_witness :
    parseRef ("h/r:d".toList) =
      some { registryHost := "h".toList,
             repository := "r".toList, digest := "d".toList } ∧
    validationFailOracle.validate = Except.error ("unsupported manifest media type") ∧
    handleRequest validationFailOracle ("h/r:d".toList) [] =
      some ({ msg := ValidationSkipMessage, err := none,
              calls := [Step.registryInit, Step.validateManifest],
              lowSpaceWarned := false, wsDir := none }, []) :=
  ⟨by decide, rfl,
    validation_failure_skips_with_nil_error validationFailOracle ("h/r:d".toList) []
      { registryHost := "h".toList, repository := "r".toList, digest := "d".toList }
      ("unsupported manifest media type") (by decide) rfl⟩

/-- Claim C8: when workspace directory allocation fails, handleRequest
returns the directory create error message together with the non-nil
underlying error. -/
theorem dir_create_failure_returns_error
    (o : Oracle) (url : List Char) (fs : List String) (ref : ImageReference) (e : String)
    (hp : parseRef url = some ref) (hv : o.validate = Except.ok ())
    (hd : o.tempDir = Except.error e) :
    handleRequest o url fs =
      some ({ msg := DirectoryCreateErrorMessage, err := some e,
              calls := [Step.registryInit, Step.validateManifest, Step.createDir],
              lowSpaceWarned := decide (o.freeSpace < minFreeSpaceBytes),
              wsDir := none }, fs) := by
  simp [handleRequest, hp, hv, createTempDir, hd]

/-- A collaborator behavior in which only directory allocation fails. -/
def dirFailOracle : Oracle :=
  { okOracle with tempDir := .error ("no writable temp storage") }

/-- Witness for C8 at a concrete oracle and reference. -/
theorem dir_create_failure_returns_error_witness :
    dirFailOracle.tempDir = Except.error ("no writable temp storage") ∧
    handleRequest dirFailOracle ("h/r:d".toList) [] =
      some ({ msg := DirectoryCreateErrorMessage,
              err := some ("no writable temp storage"),
              calls := [Step.registryInit, Step.validateManifest, Step.createDir],
              lowSpaceWarned := false, wsDir := none }, []) := by
  refine ⟨rfl, ?_⟩
  have h := dir_create_failure_returns_error dirFailOracle ("h/r:d".toList) []
    { registryHost := "h".toList, repository := "r".toList, digest := "d".toList }
    ("no writable temp storage") (by decide) rfl rfl
  simpa using h

/-- Claim C10: measured free capacity below the six gigabyte threshold
is non-fatal: when the directory allocation itself succeeds, the low
capacity only sets the warning flag, createTempDir still returns the
allocated directory, and the handler proceeds with that workspace. -/
theorem low_space_warns_and_proceeds
    (o : Oracle) (url : List Char) (fs : List String) (ref : ImageReference) (d : String)
    (hp : parseRef url = some ref) (hv : o.validate = Except.ok ())
    (hlow : o.freeSpace < minFreeSpaceBytes) (hd : o.tempDir = Except.ok d) :
    (createTempDir o.freeSpace o.tempDir).result = Except.ok d ∧
    (createTempDir o.freeSpace o.tempDir).lowSpaceWarned = true ∧
    (handleRequest o url fs).map (fun p => (p.1.wsDir, p.1.lowSpaceWarned)) =
      some (some d, true) := by
  refine ⟨by simp [createTempDir, hd], by simp [createTempDir, hlow], ?_⟩
  simp [handleRequest, hp, hv, createTempDir, hd, hlow]

/-- A collaborator behavior with low measured free capacity and every
call succeeding. -/
def lowSpaceOracle : Oracle := { okOracle with freeSpace := 100 }

/-- Witness for C10 at a concrete oracle and reference. -/
theorem low_space_warns_and_proceeds_witness :
    lowSpaceOracle.freeSpace < minFreeSpaceBytes ∧
    (createTempDir lowSpaceOracle.freeSpace lowSpaceOracle.tempDir).result =
      Except.ok ("/tmp/soci-lambda1") ∧
    (createTempDir lowSpaceOracle.freeSpace lowSpaceOracle.tempDir).lowSpaceWarned = true ∧
    (handleRequest lowSpaceOracle ("h/r:d".toList) []).map
      (fun p => (p.1.wsDir, p.1.lowSpaceWarned)) =
      some (some ("/tmp/soci-lambda1"), true) := by
  have h := low_space_warns_and_proceeds lowSpaceOracle ("h/r:d".toList) []
    { registryHost := "h".toList, repository := "r".toList, digest := "d".toList }
    ("/tmp/soci-lambda1") (by decide) rfl (by decide) rfl
  exact ⟨by decide, h.1, h.2.1, h.2.2⟩

/-- Claim C3: when the build step reports the distinguished empty-index
condition (and every earlier step succeeded), handleRequest returns the
empty-index skip message with a nil error, and the push step is never
attempted. -/
theorem empty_index_skips_push
    (o : Oracle) (url : List Char) (fs : List String) (ref : ImageReference) (d : String)
    (hp : parseRef url = some ref) (hv : o.validate = Except.ok ())
    (htd : o.tempDir = Except.ok d) (hs : o.sociStoreInit = Except.ok ())
    (hpl : isOkE o.pull = true)
    (hb : buildIndex o = Except.error ErrEmptyIndexMessage) :
    handleRequest o url fs =
      some ({ msg := SkipPushOnEmptyIndexMessage, err := none,
              calls := [Step.registryInit, Step.validateManifest, Step.createDir,
                Step.storeInit, Step.pullImage, Step.buildIdx],
              lowSpaceWarned := decide (o.freeSpace < minFreeSpaceBytes),
              wsDir := some d }, cleanUpFs (d :: fs) d) ∧
    Step.pushIndex ∉ [Step.registryInit, Step.validateManifest, Step.createDir,
      Step.storeInit, Step.pullImage, Step.buildIdx] := by
  refine ⟨?_, by decide⟩
  cases hpull : o.pull with
  | error e => rw [hpull] at hpl; simp [isOkE] at hpl
  | ok desc =>
    simp [handleRequest, hp, hv, createTempDir, htd, handleRequestCore, hs, hpull, hb]

/-- A collaborator behavior in which the build reports the distinguished
empty-index error and everything before it succeeds. -/
def emptyIndexOracle : Oracle :=
  { okOracle with build := .error ErrEmptyIndexMessage }

/-- Witness for C3 at a concrete oracle and reference. -/
theorem empty_index_skips_push_witness :
    buildIndex emptyIndexOracle = Except.error ErrEmptyIndexMessage ∧
    handleRequest emptyIndexOracle ("h/r:d".toList) [] =
      some ({ msg := SkipPushOnEmptyIndexMessage, err := none,
              calls := [Step.registryInit, Step.validateManifest, Step.createDir,
                Step.storeInit, Step.pullImage, Step.buildIdx],
              lowSpaceWarned := false,
              wsDir := some ("/tmp/soci-lambda1") },
            cleanUpFs ["/tmp/soci-lambda1"] ("/tmp/soci-lambda1")) ∧
    Step.pushIndex ∉ [Step.registryInit, Step.validateManifest, Step.createDir,
      Step.storeInit, Step.pullImage, Step.buildIdx] := by
  have h := empty_index_skips_push emptyIndexOracle ("h/r:d".toList) []
    { registryHost := "h".toList, repository := "r".toList, digest := "d".toList }
    ("/tmp/soci-lambda1") (by decide) rfl rfl rfl rfl rfl
  exact ⟨rfl, h.1, h.2⟩

/-- Claim C6: whenever an invocation that allocated a workspace
directory completes, with any outcome (success, either skip, or any
failure), the workspace directory is no longer present in the final
/tmp contents. -/
theorem workspace_removed_after_completion
    (o : Oracle) (url : List Char) (fs : List String) (r : HandleResult)
    (fsEnd : List String) (d : String)
    (h : handleRequest o url fs = some (r, fsEnd)) (hd : r.wsDir = some d) :
    d ∉ fsEnd := by
  unfold handleRequest at h
  cases hp : parseRef url with
  | none => rw [hp] at h; exact absurd h (by simp)
  | some ref =>
    rw [hp] at h
    cases hv : o.validate with
    | error e =>
      rw [hv] at h
      simp only [Option.some.injEq, Prod.mk.injEq] at h
      obtain ⟨hr, hfs⟩ := h
      rw [← hr] at hd
      exact Option.noConfusion hd
    | ok u =>
      rw [hv] at h
      cases htd : (createTempDir o.freeSpace o.tempDir).result with
      | error e =>
        rw [htd] at h
        simp only [Option.some.injEq, Prod.mk.injEq] at h
        obtain ⟨hr, hfs⟩ := h
        rw [← hr] at hd
        exact Option.noConfusion hd
      | ok dir =>
        rw [htd] at h
        simp only [Option.some.injEq, Prod.mk.injEq] at h
        obtain ⟨hr, hfs⟩ := h
        rw [← hr] at hd
        have hdd : dir = d := Option.some.inj hd
        subst hdd
        rw [← hfs]
        exact not_mem_cleanUpFs (dir :: fs) dir

/-- The result of a fully successful invocation of the okOracle run. -/
def okRunResult : HandleResult :=
  { msg := BuildAndPushSuccessMessage, err := none,
    calls := [Step.registryInit, Step.validateManifest, Step.createDir,
      Step.storeInit, Step.pullImage, Step.buildIdx, Step.pushIndex],
    lowSpaceWarned := false, wsDir := some ("/tmp/soci-lambda1") }

/-- Witness for C6 at a concrete oracle, reference and /tmp contents. -/
theorem workspace_removed_after_completion_witness :
    handleRequest okOracle ("h/r:d".toList) ["keep"] = some (okRunResult, ["keep"]) ∧
    "/tmp/soci-lambda1" ∉ ["keep"] :=
  ⟨by decide,
    workspace_removed_after_completion okOracle ("h/r:d".toList) ["keep"] okRunResult
      ["keep"] ("/tmp/soci-lambda1") (by decide) rfl⟩

/-- Claim C7: if the cancellation signal is sent strictly before the
trigger time (the absolute deadline minus the safety margin), the
deadline watcher never performs the cleanup and never reaches the fired
state, at every observation horizon; with a horizon past the signal it
terminates in the cancelled state. -/
theorem watcher_cancelled_before_trigger
    (deadline signal fuel : Nat)
    (h : signal < deadline - deadlineSafetyMarginSeconds) :
    (runWatcher deadline signal fuel).cleanupRan = false ∧
    (runWatcher deadline signal fuel).state ≠ WatcherState.fired ∧
    (signal < fuel → (runWatcher deadline signal fuel).state = WatcherState.cancelled) := by
  have aux : ∀ f t, t ≤ signal →
      (watcherLoop (deadline - deadlineSafetyMarginSeconds) signal t f).cleanupRan = false ∧
      (watcherLoop (deadline - deadlineSafetyMarginSeconds) signal t f).state ≠
        WatcherState.fired ∧
      (signal < t + f →
        (watcherLoop (deadline - deadlineSafetyMarginSeconds) signal t f).state =
          WatcherState.cancelled) := by
    intro f
    induction f with
    | zero =>
      intro t ht
      refine ⟨rfl, by simp [watcherLoop], fun hlt => ?_⟩
      omega
    | succ n ih =>
      intro t ht
      have htr : ¬ (deadline - deadlineSafetyMarginSeconds ≤ t) := by omega
      by_cases hsig : signal ≤ t
      · simp [watcherLoop, htr, hsig]
      · have ht1 : t + 1 ≤ signal := by omega
        have hih := ih (t + 1) ht1
        refine ⟨?_, ?_, fun hlt => ?_⟩
        · simpa [watcherLoop, htr, hsig] using hih.1
        · simpa [watcherLoop, htr, hsig] using hih.2.1
        · have : signal < (t + 1) + n := by omega
          simpa [watcherLoop, htr, hsig] using hih.2.2 this
  have ha := aux fuel 0 (Nat.zero_le _)
  exact ⟨ha.1, ha.2.1, fun hlt => ha.2.2 (by omega)⟩

/-- Witness for C7 at concrete times: deadline 100, signal at 30, a
horizon of 200 seconds. -/
theorem watcher_cancelled_before_trigger_witness :
    30 < 100 - deadlineSafetyMarginSeconds ∧
    (runWatcher 100 30 200).cleanupRan = false ∧
    (runWatcher 100 30 200).state ≠ WatcherState.fired ∧
    (runWatcher 100 30 200).state = WatcherState.cancelled := by
  have h := watcher_cancelled_before_trigger 100 30 200 (by decide)
  exact ⟨by decide, h.1, h.2.1, h.2.2 (by decide)⟩

/-- Claim C5: after a successful build chain, the descriptor collection
lookup decides the result of buildIndex: an empty collection yields the
no-indices-found error rather than a descriptor, and a non-empty
collection yields a member of the collection whose creation timestamp
is maximal (the latest creation timestamp wins). -/
theorem buildIndex_latest_descriptor
    (o : Oracle) (l : List DescInfo)
    (h1 : o.artifactsDbInit = Except.ok ()) (h2 : o.containerdStoreInit = Except.ok ())
    (h3 : o.builderInit = Except.ok ()) (h4 : o.build = Except.ok ())
    (h5 : o.writeIndex = Except.ok ()) (hd : o.indexDescriptors = Except.ok l) :
    (l = [] → buildIndex o = Except.error NoIndicesFoundMessage) ∧
    (∀ d, buildIndex o = Except.ok d → d ∈ l ∧ ∀ y ∈ l, y.createdAt ≤ d.createdAt) ∧
    (l ≠ [] → isOkE (buildIndex o) = true) := by
  have hb : buildIndex o =
      (if l.length = 0 then (Except.error NoIndicesFoundMessage : Except String DescInfo)
       else match (sortByCreated l).getLast? with
            | none => Except.error NoIndicesFoundMessage
            | some d => Except.ok d) := by
    simp [buildIndex, h1, h2, h3, h4, h5, hd]
  by_cases hnil : l = []
  · subst hnil
    refine ⟨fun _ => ?_, fun d hdok => ?_, fun hne => absurd rfl hne⟩
    · simpa using hb
    · rw [hb] at hdok
      simp at hdok
  · obtain ⟨m, hlast, hmem, hmax⟩ := sortByCreated_getLast_max l hnil
    have hlen : ¬ l.length = 0 := by
      cases l with
      | nil => exact absurd rfl hnil
      | cons a as => simp
    have hb2 : buildIndex o = Except.ok m := by
      rw [hb, if_neg hlen, hlast]
    refine ⟨fun hl => absurd hl hnil, fun d hdok => ?_, fun _ => ?_⟩
    · rw [hb2] at hdok
      have hdm : m = d := Except.ok.inj hdok
      subst hdm
      exact ⟨hmem, hmax⟩
    · rw [hb2]
      rfl

/-- A descriptor collection with two creation timestamps. -/
def twoDescList : List DescInfo :=
  [{ digest := "older", createdAt := 3 }, { digest := "newer", createdAt := 9 }]

/-- A collaborator behavior whose lookup returns two descriptors. -/
def twoDescOracle : Oracle := { okOracle with indexDescriptors := .ok twoDescList }

/-- Witness for C5 at a concrete two-element descriptor collection. -/
theorem buildIndex_latest_descriptor_witness :
    buildIndex twoDescOracle = Except.ok { digest := "newer", createdAt := 9 } ∧
    ({ digest := "newer", createdAt := 9 } : DescInfo) ∈ twoDescList ∧
    isOkE (buildIndex twoDescOracle) = true := by
  have h := buildIndex_latest_descriptor twoDescOracle twoDescList rfl rfl rfl rfl rfl rfl
  exact ⟨rfl, (h.2.1 { digest := "newer", createdAt := 9 } rfl).1, h.2.2 (by decide)⟩

/-- A collaborator behavior in which only registry initialization fails. -/
def registryInitFailOracle : Oracle :=
  { okOracle with registryInit := .error ("registry client construction failed") }

/-- Claim C1, counterexample: the registry initialization error is only
printed (handler.go lines 55 to 58) and execution continues; with every
other collaborator succeeding, handleRequest returns the success message
with a nil error, which is not one of the two skip outcomes, so this
collaborator error is neither mapped to a skip nor surfaced as an
error. -/
theorem registry_init_error_swallowed :
    registryInitFailOracle.registryInit =
      Except.error ("registry client construction failed") ∧
    (handleRequest registryInitFailOracle ("h/r:d".toList) []).map
      (fun p => (p.1.msg, p.1.err)) = some (BuildAndPushSuccessMessage, none) ∧
    BuildAndPushSuccessMessage ≠ ValidationSkipMessage ∧
    BuildAndPushSuccessMessage ≠ SkipPushOnEmptyIndexMessage :=
  ⟨rfl, by decide, by decide, by decide⟩

theorem handleRequestCore_classified (o : Oracle) :
    ((handleRequestCore o).2.1 = none →
      (handleRequestCore o).1 = BuildAndPushSuccessMessage ∨
      (handleRequestCore o).1 = SkipPushOnEmptyIndexMessage) ∧
    ((handleRequestCore o).1 = BuildAndPushSuccessMessage →
      isOkE o.sociStoreInit = true ∧ isOkE o.pull = true ∧
      isOkE (buildIndex o) = true ∧ isOkE o.push = true) := by
  cases hs : o.sociStoreInit with
  | error e =>
    refine ⟨fun hn => ?_, fun hm => ?_⟩
    · simp [handleRequestCore, hs] at hn
    · simp [handleRequestCore, hs] at hm
      exact absurd hm (by decide)
  | ok u =>
    cases hpull : o.pull with
    | error e =>
      refine ⟨fun hn => ?_, fun hm => ?_⟩
      · simp [handleRequestCore, hs, hpull] at hn
      · simp [handleRequestCore, hs, hpull] at hm
        exact absurd hm (by decide)
    | ok desc =>
      cases hb : buildIndex o with
      | error e =>
        by_cases hee : e = ErrEmptyIndexMessage
        · refine ⟨fun hn => ?_, fun hm => ?_⟩
          · right
            simp [handleRequestCore, hs, hpull, hb, hee]
          · simp [handleRequestCore, hs, hpull, hb, hee] at hm
            exact absurd hm (by decide)
        · refine ⟨fun hn => ?_, fun hm => ?_⟩
          · simp [handleRequestCore, hs, hpull, hb, hee] at hn
          · simp [handleRequestCore, hs, hpull, hb, hee] at hm
            exact absurd hm (by decide)
      | ok d =>
        cases hpush : o.push with
        | error e =>
          refine ⟨fun hn => ?_, fun hm => ?_⟩
          · simp [handleRequestCore, hs, hpull, hb, hpush] at hn
          · simp [handleRequestCore, hs, hpull, hb, hpush] at hm
            exact absurd hm (by decide)
        | ok v =>
          refine ⟨fun hn => ?_, fun hm => ?_⟩
          · left
            simp [handleRequestCore, hs, hpull, hb, hpush]
          · exact ⟨by simp [isOkE, hs], by simp [isOkE, hpull],
              by simp [isOkE, hb], by simp [isOkE, hpush]⟩

/-- Claim C1, amended: for every invocation that returns, a nil error
means the outcome is the success message or one of the two deliberate
skip messages, and a success outcome means manifest validation,
directory creation, store initialization, pull, the whole build chain
and push all succeeded; the exception forced by the code is registry
initialization, whose error is only logged while execution continues. -/
theorem collaborator_errors_surfaced_except_registry_init
    (o : Oracle) (url : List Char) (fs : List String) (r : HandleResult)
    (fsEnd : List String)
    (h : handleRequest o url fs = some (r, fsEnd)) (he : r.err = none) :
    (r.msg = BuildAndPushSuccessMessage ∨ r.msg = ValidationSkipMessage ∨
      r.msg = SkipPushOnEmptyIndexMessage) ∧
    (r.msg = BuildAndPushSuccessMessage →
      isOkE o.validate = true ∧ isOkE o.tempDir = true ∧
      isOkE o.sociStoreInit = true ∧ isOkE o.pull = true ∧
      isOkE (buildIndex o) = true ∧ isOkE o.push = true) := by
  unfold handleRequest at h
  cases hp : parseRef url with
  | none => rw [hp] at h; exact absurd h (by simp)
  | some ref =>
    rw [hp] at h
    cases hv : o.validate with
    | error e =>
      rw [hv] at h
      simp only [Option.some.injEq, Prod.mk.injEq] at h
      obtain ⟨hr, hfs⟩ := h
      subst hr
      refine ⟨Or.inr (Or.inl rfl), fun hm => ?_⟩
      exact absurd hm (show ValidationSkipMessage ≠ BuildAndPushSuccessMessage by decide)
    | ok u =>
      rw [hv] at h
      cases htd : (createTempDir o.freeSpace o.tempDir).result with
      | error e =>
        rw [htd] at h
        simp only [Option.some.injEq, Prod.mk.injEq] at h
        obtain ⟨hr, hfs⟩ := h
        subst hr
        exact Option.noConfusion he
      | ok dir =>
        rw [htd] at h
        simp only [Option.some.injEq, Prod.mk.injEq] at h
        obtain ⟨hr, hfs⟩ := h
        subst hr
        have hc := handleRequestCore_classified o
        refine ⟨?_, fun hm => ?_⟩
        · rcases hc.1 he with h1 | h1
          · exact Or.inl h1
          · exact Or.inr (Or.inr h1)
        · have h4 := hc.2 hm
          have htd2 : o.tempDir = Except.ok dir := htd
          exact ⟨by simp [isOkE, hv], by simp [isOkE, htd2],
            h4.1, h4.2.1, h4.2.2.1, h4.2.2.2⟩

/-- Witness for the amended C1 at the all-success oracle. -/
theorem collaborator_errors_surfaced_except_registry_init_witness :
    okRunResult.err = none ∧
    ((okRunResult.msg = BuildAndPushSuccessMessage ∨
      okRunResult.msg = ValidationSkipMessage ∨
      okRunResult.msg = SkipPushOnEmptyIndexMessage) ∧
     (okRunResult.msg = BuildAndPushSuccessMessage →
       isOkE okOracle.validate = true ∧ isOkE okOracle.tempDir = true ∧
       isOkE okOracle.sociStoreInit = true ∧ isOkE okOracle.pull = true ∧
       isOkE (buildIndex okOracle) = true ∧ isOkE okOracle.push = true)) :=
  ⟨rfl, collaborator_errors_surfaced_except_registry_init okOracle ("h/r:d".toList)
    ["x"] okRunResult ["x"] (by decide) rfl⟩

/-- Claim C4, counterexample: the input hostonly:sha holds no path
separator, yet parsing does not fail in any way: no
MalformedReferenceError exists anywhere in the code; the whole input is
taken as the registry host and a reference is produced. -/
theorem parse_no_separator_succeeds :
    parseRef ("hostonly:sha".toList) =
      some { registryHost := "hostonly:sha".toList,
             repository := "hostonly".toList, digest := "sha".toList } := by
  decide

/-- Claim C4, amended: the code classifies nothing: an input holding no
colon makes the digest extraction fault with an index-out-of-range
runtime error, modelled as no result at all for the parse and for the
whole handler, rather than a classified returnable failure; an input
holding a colon always parses, and when it also holds no path separator
the whole input becomes the registry host. -/
theorem parse_malformed_behavior (url : List Char) :
    ( ':' ∉ url → parseRef url = none ∧ ∀ o fs, handleRequest o url fs = none) ∧
    ( ':' ∈ url → parseRef url ≠ none) ∧
    ( '/' ∉ url → ∀ r, parseRef url = some r → r.registryHost = url) := by
  refine ⟨fun hc => ?_, fun hc => ?_, fun hsl r hr => ?_⟩
  · have hsp : splitOnChar ':' url = [url] := splitOnChar_of_not_mem _ _ hc
    have hp : parseRef url = none := by
      simp [parseRef, hsp]
    exact ⟨hp, fun o fs => by simp [handleRequest, hp]⟩
  · have hlen := two_le_splitOnChar_length ':' url hc
    cases hdp : (splitOnChar ':' url).drop 1 with
    | nil =>
      exfalso
      have hl0 := congrArg List.length hdp
      rw [List.length_drop] at hl0
      simp only [List.length_nil] at hl0
      omega
    | cons d rest =>
      simp [parseRef, hdp]
  · have hsp : splitOnChar '/' url = [url] := splitOnChar_of_not_mem _ _ hsl
    unfold parseRef at hr
    cases hdp : (splitOnChar ':' url).drop 1 with
    | nil => rw [hdp] at hr; exact absurd hr (by simp)
    | cons d rest =>
      rw [hdp] at hr
      have hrr := Option.some.inj hr
      rw [← hrr]
      simp [hsp]

/-- Witness for the amended C4 at concrete malformed inputs. -/
theorem parse_malformed_behavior_witness :
    parseRef ("nocolon".toList) = none ∧ parseRef ("hostonly:sha".toList) ≠ none :=
  ⟨((parse_malformed_behavior ("nocolon".toList)).1 (by decide)).1,
   (parse_malformed_behavior ("hostonly:sha".toList)).2.1 (by decide)⟩

/-- Claim C9, counterexample: for the URI h/r:sha256:abc, whose host
segment h holds no colon and whose digest by the claim is the suffix
after the first colon (sha256:abc), the code takes the segment between
the first and the second colon (sha256) as the digest, and consequently
the digest suffix is not trimmed from the repository either. -/
theorem parse_digest_not_suffix_after_first_colon :
    parseRef ("h/r:sha256:abc".toList) =
      some { registryHost := "h".toList, repository := "r:sha256:abc".toList,
             digest := "sha256".toList } ∧
    "sha256".toList ≠ "sha256:abc".toList ∧
    "r:sha256:abc".toList ≠ "r".toList :=
  ⟨by decide, by decide, by decide⟩

/-- Claim C9, amended: restricted to inputs whose digest part holds no
colon, so that the suffix after the first colon really is the digest:
for a slash-free colon-free host, a colon-free repository and a
non-empty colon-free digest, parsing yields exactly the host before the
first path separator, the repository with the host prefix and the
colon-digest suffix removed, and the digest after the first colon.
When the digest itself holds a colon, the digest boundary the code uses
is the second colon of the input, not the first, as the counterexample
shows. -/
theorem parse_single_colon_correct
    (host repo digest : List Char)
    (hhs : '/' ∉ host) (hhc : ':' ∉ host) (hrc : ':' ∉ repo) (hdc : ':' ∉ digest)
    (_hne : digest ≠ []) :
    parseRef (host ++ '/' :: (repo ++ ':' :: digest)) =
      some { registryHost := host, repository := repo, digest := digest } := by
  have hurl : host ++ '/' :: (repo ++ ':' :: digest)
      = (host ++ '/' :: repo) ++ ':' :: digest := by
    simp
  have hnc : ':' ∉ host ++ '/' :: repo := by
    intro hmem
    rcases List.mem_append.mp hmem with h1 | h2
    · exact hhc h1
    · rcases List.mem_cons.mp h2 with h3 | h4
      · exact absurd h3 (by decide)
      · exact hrc h4
  have hsplitc : splitOnChar ':' (host ++ '/' :: (repo ++ ':' :: digest))
      = [host ++ '/' :: repo, digest] := by
    rw [hurl, splitOnChar_append _ _ _ hnc, splitOnChar_of_not_mem _ _ hdc]
  have hsplits : splitOnChar '/' (host ++ '/' :: (repo ++ ':' :: digest))
      = host :: splitOnChar '/' (repo ++ ':' :: digest) :=
    splitOnChar_append '/' host (repo ++ ':' :: digest) hhs
  have hpre : trimPre (host ++ '/' :: (repo ++ ':' :: digest)) (host ++ [ '/' ])
      = repo ++ ':' :: digest := by
    have h2 : host ++ '/' :: (repo ++ ':' :: digest)
        = (host ++ [ '/' ]) ++ (repo ++ ':' :: digest) := by simp
    rw [h2]
    exact trimPre_append _ _
  have hsuf : trimSuf (repo ++ ':' :: digest) ( ':' :: digest) = repo :=
    trimSuf_append repo ( ':' :: digest)
  simp only [parseRef, hsplitc, List.drop_succ_cons, List.drop_zero]
  rw [hsplits]
  simp only [List.headD_cons]
  rw [hpre, hsuf]

/-- Witness for the amended C9 at a concrete well-formed reference with
a path inside the repository. -/
theorem parse_single_colon_correct_witness :
    parseRef ("reg".toList ++ '/' :: ("r/sub".toList ++ ':' :: "sha256abc".toList)) =
      some { registryHost := "reg".toList, repository := "r/sub".toList,
             digest := "sha256abc".toList } :=
  parse_single_colon_correct ("reg".toList) ("r/sub".toList) ("sha256abc".toList)
    (by decide) (by decide) (by decide) (by decide) (by decide)
